import Mathlib

set_option linter.unusedVariables false

/-! Shallow embedding of node-persistent-queue (src/index.js): a SQLite-backed
single-consumer FIFO job queue.  JavaScript values, the sqlite rows and the
in-memory state of a PersistentQueue instance are modelled as Lean data; each
prototype method becomes a Lean function on that state.  Storage errors are
injected through explicit parameters at the points where the source consults
an err callback argument. -/

namespace PQ

/-- JSON-like payload values; JSON.stringify / JSON.parse are modelled through
the Blob type below. -/
inductive JSVal where
  | null
  | boolVal (b : Bool)
  | numVal (n : Int)
  | strVal (s : String)
deriving DecidableEq

/-- A serialized payload column: either the canonical serialization of a value
(the output of JSON.stringify) or malformed text that JSON.parse rejects. -/
inductive Blob where
  | good (v : JSVal)
  | bad (s : String)
deriving DecidableEq

/-- JSON.stringify applied to a payload value. -/
def stringifyJS (v : JSVal) : Blob := Blob.good v

/-- JSON.parse applied to a stored payload column; malformed text raises a
SyntaxError, which the source surfaces through the surrounding promise. -/
def parseJS : Blob → Except String JSVal
  | Blob.good v => Except.ok v
  | Blob.bad s => Except.error ("SyntaxError in " ++ s)

/-- Does this stored column fail to deserialize? -/
def Blob.isBad : Blob → Bool
  | Blob.good _ => false
  | Blob.bad _ => true

/-- An in-memory task: {id, job} as held in this.queue. -/
structure Task where
  id : Nat
  job : JSVal
deriving DecidableEq

/-- A row of the sqlite queue table: id INTEGER PRIMARY KEY, job TEXT. -/
structure Row where
  id : Nat
  job : Blob
deriving DecidableEq

/-- The sqlite database contents: the queue table rows (kept in insertion
order; ids are assigned by AUTOINCREMENT from seq), the AUTOINCREMENT
sequence, and the queue_count counter maintained by the two triggers. -/
@[ext]
structure Store where
  rows : List Row
  seq : Nat
  counter : Int
deriving DecidableEq

/-- In-memory instance state of a PersistentQueue (the fields set by the
constructor): this.queue, this.length, this.empty, this.run, this.opened,
whether this.db is non-null, and this.batchSize. -/
@[ext]
structure QState where
  queue : List Task
  length : Option Int
  empty : Option Bool
  run : Bool
  opened : Bool
  dbOpen : Bool
  batchSize : Int
deriving DecidableEq

/-- Events emitted on the EventEmitter surface. -/
inductive Event where
  | add (t : Task)
  | del (id : Nat)
  | trig
  | empty
  | next (t : Task)
deriving DecidableEq

/-- What the trigger_next handler ends up doing. -/
inductive Delivery where
  | silent
  | next (t : Option Task)
  | emptied
deriving DecidableEq

/-- An untyped JavaScript value as it appears in a promise settlement of
has(): either a boolean or an Error object. -/
inductive JV where
  | boolean (b : Bool)
  | errObj (msg : String)
deriving DecidableEq

/-- Settlement of a promise: fulfilled with a value or rejected with a
reason.  The first settlement wins; later resolve/reject calls are no-ops. -/
inductive Settle where
  | fulfilled (v : JV)
  | rejected (v : JV)
deriving DecidableEq

/-- A JavaScript argument value as passed to the constructor (omitted
parameters arrive as undefined). -/
inductive JSArg where
  | undefinedArg
  | strArg (s : String)
  | numArg (n : Int)
  | boolArg (b : Bool)
deriving DecidableEq

/-- The fresh instance state the constructor initialises. -/
def initState (b : Int) : QState :=
  { queue := [], length := none, empty := none, run := false,
    opened := false, dbOpen := false, batchSize := b }

/-- Result of the constructor: this.dbPath, this.batchSize and the initial
instance state. -/
structure CtorOut where
  dbPath : JSArg
  batchSize : Int
  st : QState
deriving DecidableEq

/-- The PersistentQueue constructor: throws when filename is undefined; maps
the empty string to the in-memory path; defaults an undefined batchSize to
10; throws when the (defaulted) batchSize is not a number or is < 1. -/
def construct (filename batchSize : JSArg) : Except String CtorOut :=
  if filename = JSArg.undefinedArg then
    Except.error "No filename parameter provided"
  else
    let dbPath := if filename = JSArg.strArg "" then JSArg.strArg ":memory:" else filename
    let b := if batchSize = JSArg.undefinedArg then JSArg.numArg 10 else batchSize
    match b with
    | JSArg.numArg n =>
      if n < 1 then Except.error "Invalid batchSize parameter.  Must be a number > 0"
      else Except.ok { dbPath := dbPath, batchSize := n, st := initState n }
    | _ => Except.error "Invalid batchSize parameter.  Must be a number > 0"

/-- Spec-side characterization used only in the statement about the
constructor guard: the batch size argument was provided and is not a number
or is less than 1. -/
def badBatch : JSArg → Bool
  | JSArg.undefinedArg => false
  | JSArg.numArg n => decide (n < 1)
  | _ => true

/-- Spec-side characterization: the value this.batchSize ends up with when
construction succeeds. -/
def defaultedBatch : JSArg → Int
  | JSArg.undefinedArg => 10
  | JSArg.numArg n => n
  | _ => 0

deriving instance DecidableEq for Except

/-- Is an Except an error? -/
def isErr {α : Type} : Except String α → Bool
  | Except.error _ => true
  | Except.ok _ => false

/-- Projection to Option, forgetting the error message. -/
def exOk {α : Type} : Except String α → Option α
  | Except.ok a => some a
  | Except.error _ => none

/-- getLength(): returns this.length as-is (null until open has counted). -/
def getLength (q : QState) : Option Int := q.length

/-- isEmpty(): throws before open resolved the empty flag, else returns it. -/
def isEmptyOp (q : QState) : Except String Bool :=
  match q.empty with
  | none => Except.error "Call open() method before calling isEmpty()"
  | some b => Except.ok b

/-- The on-close handler: resets opened, db handle, empty, run and the cache.
Note the source does not touch this.length here. -/
def closeHandler (q : QState) : QState :=
  { q with opened := false, dbOpen := false, empty := none, run := false, queue := [] }

/-- Result of close(). -/
structure CloseOut where
  q : QState
  settled : Except String Unit
deriving DecidableEq

/-- close(): db.close; on error the promise rejects but, lacking an early
return, the source still emits the close event (running the handler) and
calls resolve (a no-op on an already rejected promise). -/
def closeOp (q : QState) (closeErr : Option String) : CloseOut :=
  match closeErr with
  | some e => { q := closeHandler q, settled := Except.error e }
  | none => { q := closeHandler q, settled := Except.ok () }

/-- The on-add handler: when the queue had been marked empty, flip the flag
and, if running, emit trigger_next (whose own state effects in this
situation are deferred: it either starts an asynchronous rehydration or
schedules the delivery with setImmediate). -/
def addHandler (q : QState) : QState × List Event :=
  if q.empty = some true then
    ({ q with empty := some false }, if q.run then [Event.trig] else [])
  else (q, [])

/-- Result of add(). -/
structure AddOut where
  st : QState
  store : Store
  settled : Except String Nat
  events : List Event
deriving DecidableEq

/-- add(job): INSERT the serialized job.  On an insert error the callback
rejects, but the source has no early return, so it still increments
this.length, emits the add event (with an absent lastID, modelled as id 0)
and calls resolve (a no-op after the rejection).  On success the row gets
id seq+1, the insert trigger bumps the counter, and the promise resolves
with lastID. -/
def addOp (q : QState) (s : Store) (job : JSVal) (insertErr : Option String) : AddOut :=
  match insertErr with
  | some e =>
    let q1 := { q with length := q.length.map (· + 1) }
    let h := addHandler q1
    { st := h.1, store := s, settled := Except.error e,
      events := Event.add { id := 0, job := job } :: h.2 }
  | none =>
    let s1 : Store := { rows := s.rows ++ [{ id := s.seq + 1, job := stringifyJS job }],
                        seq := s.seq + 1, counter := s.counter + 1 }
    let q1 := { q with length := q.length.map (· + 1) }
    let h := addHandler q1
    { st := h.1, store := s1, settled := Except.ok (s.seq + 1),
      events := Event.add { id := s.seq + 1, job := job } :: h.2 }

/-- has(id): the promise executor is declared as (reject, resolve), so the
parameter named resolve is the real reject function and vice versa.  A cache
hit calls resolve(true), i.e. the real reject, and that first settlement
wins; otherwise the db lookup rejects with the membership boolean, or, on a
db error, resolves with the error object. -/
def hasOp (q : QState) (s : Store) (id : Nat) (dbErr : Option String) : Settle :=
  if q.queue.any (fun t => t.id = id) then
    Settle.rejected (JV.boolean true)
  else
    match dbErr with
    | some e => Settle.fulfilled (JV.errObj e)
    | none => Settle.rejected (JV.boolean (s.rows.any (fun r => r.id = id)))

/-- Insert a row before the first row with a greater-or-equal id. -/
def insertRow (r : Row) : List Row → List Row
  | [] => [r]
  | x :: xs => if r.id ≤ x.id then r :: x :: xs else x :: insertRow r xs

/-- ORDER BY id ASC over the queue table rows. -/
def sortById : List Row → List Row
  | [] => []
  | x :: xs => insertRow x (sortById xs)

/-- JSON.parse each selected row into a Task.  The source maps over the rows
inside the promise executor and rejects on the first row whose payload fails
to parse (the promise keeps its first settlement), so the result is the
first deserialization error, if any. -/
def decodeRows : List Row → Except String (List Task)
  | [] => Except.ok []
  | r :: rs =>
    match parseJS r.job with
    | Except.error e => Except.error e
    | Except.ok v => (decodeRows rs).map (fun ts => { id := r.id, job := v } :: ts)

/-- hydrateQueue: SELECT * FROM queue ORDER BY id ASC LIMIT batchSize, parse
the payloads and replace this.queue with the result; rejects on a parse
error.  (On that rejection the caller never observes this.queue, because
open() rejects and the trigger loop exits the process.) -/
def hydrateQueue (q : QState) (s : Store) : Except String QState :=
  (decodeRows ((sortById s.rows).take q.batchSize.toNat)).map
    (fun ts => { q with queue := ts })

/-- open(), with the db handle obtained and the schema statements assumed to
succeed: the schema block resynchronises the counter with COUNT(*),
countQueue copies the counter into this.length, hydrateQueue fills the
cache, then the empty flag is resolved from the cache and the open event
sets this.opened. -/
def openOp (q : QState) (s : Store) : Except String (QState × Store) :=
  let s1 : Store := { s with counter := (s.rows.length : Int) }
  let q1 := { q with dbOpen := true, length := some s1.counter }
  (hydrateQueue q1 s1).map
    (fun q2 => ({ q2 with empty := some q2.queue.isEmpty, opened := true }, s1))

/-- removeJob splicing: delete the first cache entry with the given id. -/
def spliceById (id : Nat) : List Task → List Task
  | [] => []
  | t :: ts => if t.id = id then ts else t :: spliceById id ts

/-- done(): removeJob with no id shifts the cache head and deletes that id
from the store; then this.length is decremented and trigger_next is emitted.
none models the process-fatal paths (shift on an empty cache throws, and a
delete affecting zero rows rejects into a catch that exits the process). -/
def doneOp (q : QState) (s : Store) : Option (QState × Store) :=
  match q.queue with
  | [] => none
  | t :: rest =>
    let changes := s.rows.countP (fun r => r.id == t.id)
    if changes = 0 then none
    else some
      ({ q with queue := rest, length := q.length.map (· - 1) },
       { s with rows := s.rows.filter (fun r => r.id != t.id),
                counter := s.counter - changes })

/-- Result of delete(id). -/
structure DelOut where
  q : QState
  s : Store
  settled : Except String Nat
  events : List Event
deriving DecidableEq

/-- delete(id): removeJob splices the cache first, then runs the store
delete; when zero rows are affected removeJob rejects and delete rejects
without touching this.length, otherwise the delete event is emitted, the
length decremented and the promise resolved with the id. -/
def deleteOp (q : QState) (s : Store) (id : Nat) : DelOut :=
  let cache := spliceById id q.queue
  let changes := s.rows.countP (fun r => r.id == id)
  if changes = 0 then
    { q := { q with queue := cache }, s := s,
      settled := Except.error ("Job id " ++ toString id ++ " was not removed from queue"),
      events := [] }
  else
    { q := { q with queue := cache, length := q.length.map (· - 1) },
      s := { s with rows := s.rows.filter (fun r => r.id != id),
                    counter := s.counter - changes },
      settled := Except.ok id,
      events := [Event.del id] }

/-- searchQueue: SELECT id FROM queue WHERE job = stringify(pattern)
ORDER BY id ASC. -/
def searchQueue (s : Store) (job : JSVal) : List Nat :=
  (sortById (s.rows.filter (fun r => r.job == stringifyJS job))).map (fun r => r.id)

/-- getJobIds(job). -/
def getJobIds (s : Store) (job : JSVal) : List Nat := searchQueue s job

/-- getFirstJobId(job): findIndex over the in-memory cache comparing
serialized payloads; on a miss fall back to searchQueue, resolving null
(none) when that comes back empty. -/
def getFirstJobId (q : QState) (s : Store) (job : JSVal) : Option Nat :=
  match q.queue.find? (fun t => stringifyJS t.job == stringifyJS job) with
  | some t => some t.id
  | none =>
    match searchQueue s job with
    | [] => none
    | x :: _ => some x

/-- The on-empty handler: mark the queue empty (the VACUUM has no modelled
effect). -/
def emptyHandler (q : QState) : QState := { q with empty := some true }

/-- The trigger_next handler: a no-op when not running or already marked
empty; rehydrate and schedule the (new) head when the cache is empty but
this.length is not 0 (null included, as in the strict !== comparison);
schedule the current head when the cache is non-empty; otherwise emit the
empty event.  A hydration error is process-fatal in the source. -/
def triggerNext (q : QState) (s : Store) : Except String (QState × Delivery) :=
  if q.run = false ∨ q.empty = some true then Except.ok (q, Delivery.silent)
  else if q.queue.isEmpty ∧ q.length ≠ some 0 then
    (hydrateQueue q s).map (fun q2 => (q2, Delivery.next q2.queue.head?))
  else if q.queue.isEmpty = false then Except.ok (q, Delivery.next q.queue.head?)
  else Except.ok (emptyHandler q, Delivery.emptied)

/-- The on-stop handler. -/
def stopHandler (q : QState) : QState := { q with run := false }

/-- abort(): just stop() — it touches neither the cache nor the store. -/
def abortOp (q : QState) (s : Store) : QState × Store := (stopHandler q, s)

/-- start(): the start handler throws when the db handle is null; when not
already running it sets run and emits trigger_next. -/
def startOp (q : QState) (s : Store) : Except String (QState × Delivery) :=
  if q.dbOpen = false then Except.error "Open queue database before starting queue"
  else if q.run = false then triggerNext { q with run := true } s
  else Except.ok (q, Delivery.silent)

/-- The processing loop from the consumer's point of view: each announced
next task is handled by calling done(), whose completion emits trigger_next
again; the loop ends when trigger_next stays silent or announces empty.
Returns the ids announced via the next event, in order.  Fuel bounds the
recursion; hydration errors and the process-fatal done paths surface as
errors. -/
def drainFrom (fuel : Nat) (q : QState) (s : Store) : Except String (List Nat) :=
  match fuel with
  | 0 => Except.error "out of fuel"
  | fuel + 1 =>
    match triggerNext q s with
    | Except.error e => Except.error e
    | Except.ok (_, Delivery.silent) => Except.ok []
    | Except.ok (_, Delivery.emptied) => Except.ok []
    | Except.ok (_, Delivery.next none) => Except.error "undefined head task"
    | Except.ok (q1, Delivery.next (some t)) =>
      match doneOp q1 s with
      | none => Except.error "process exit"
      | some (q2, s2) => (drainFrom fuel q2 s2).map (fun ids => t.id :: ids)

/-- start() followed by the drain loop above. -/
def startDrain (q : QState) (s : Store) (fuel : Nat) : Except String (List Nat) :=
  if q.dbOpen = false then Except.error "Open queue database before starting queue"
  else if q.run = true then Except.ok []
  else drainFrom fuel { q with run := true } s

/-- The state of a queue freshly opened over an empty database. -/
def openedEmpty (b : Int) : QState :=
  { queue := [], length := some 0, empty := some true, run := false,
    opened := true, dbOpen := true, batchSize := b }

/-- An empty database. -/
def emptyStore : Store := { rows := [], seq := 0, counter := 0 }

/-- A sequence of successful add() calls. -/
def addAll (st : QState × Store) (jobs : List JSVal) : QState × Store :=
  jobs.foldl (fun st j => let o := addOp st.1 st.2 j none; (o.st, o.store)) st

/-- The rows a sequence of adds appends, with ids counting up from start. -/
def mkRows (start : Nat) : List JSVal → List Row
  | [] => []
  | j :: js => { id := start, job := stringifyJS j } :: mkRows (start + 1) js

/-- One settled queue operation, for the count-invariant statement: a
successful add, a successful done (an unsuccessful one kills the process), a
delete (either settlement), or a cache rehydration performed by the trigger
loop. -/
inductive Op where
  | add (j : JSVal)
  | fin
  | del (id : Nat)
  | hydr
deriving DecidableEq

/-- Apply one operation; none when the operation cannot settle (process
death or a failed rehydration). -/
def applyOp : QState × Store → Op → Option (QState × Store)
  | (q, s), Op.add j => let o := addOp q s j none; some (o.st, o.store)
  | (q, s), Op.fin => doneOp q s
  | (q, s), Op.del id => let o := deleteOp q s id; some (o.q, o.s)
  | (q, s), Op.hydr =>
    match hydrateQueue q s with
    | Except.ok q2 => some (q2, s)
    | Except.error _ => none

/-- Apply a sequence of operations. -/
def applyOps (st : QState × Store) : List Op → Option (QState × Store)
  | [] => some st
  | op :: ops =>
    match applyOp st op with
    | some st2 => applyOps st2 ops
    | none => none

/-- Well-formedness the sqlite schema guarantees: ids are unique (PRIMARY
KEY) and never exceed the AUTOINCREMENT sequence. -/
def StoreWf (s : Store) : Prop :=
  (s.rows.map (fun r => r.id)).Nodup ∧ ∀ r ∈ s.rows, r.id ≤ s.seq

instance (s : Store) : Decidable (StoreWf s) := by
  unfold StoreWf; infer_instance

/-- An opened queue over hasStore with an empty cache. -/
def hasQ : QState :=
  { queue := [], length := some 1, empty := some false, run := false,
    opened := true, dbOpen := true, batchSize := 10 }

/-- An opened queue whose cache holds the task with id 1. -/
def hasCacheQ : QState :=
  { hasQ with queue := [{ id := 1, job := JSVal.null }] }

/-- A store holding the single task with id 1. -/
def hasStore : Store :=
  { rows := [{ id := 1, job := Blob.good JSVal.null }], seq := 1, counter := 1 }

/-- An opened, running queue mid-delivery: task 1 at the head of the cache. -/
def abortQ : QState :=
  { queue := [{ id := 1, job := JSVal.strVal "X" }], length := some 1,
    empty := some false, run := true, opened := true, dbOpen := true, batchSize := 10 }

/-- The store behind abortQ. -/
def abortStore : Store :=
  { rows := [{ id := 1, job := Blob.good (JSVal.strVal "X") }], seq := 1, counter := 1 }

/-- An opened queue with three settled tasks counted. -/
def closeQ : QState :=
  { queue := [{ id := 1, job := JSVal.null }], length := some 3, empty := some false,
    run := true, opened := true, dbOpen := true, batchSize := 10 }

/-- An opened non-empty queue holding exactly the task with id 7. -/
def delQ : QState :=
  { queue := [{ id := 7, job := JSVal.numVal 42 }], length := some 1,
    empty := some false, run := false, opened := true, dbOpen := true, batchSize := 10 }

/-- The store behind delQ. -/
def delStore : Store :=
  { rows := [{ id := 7, job := Blob.good (JSVal.numVal 42) }], seq := 7, counter := 1 }

/-- A store whose first row holds malformed payload text. -/
def badStore : Store :=
  { rows := [{ id := 1, job := Blob.bad "notjson" }], seq := 1, counter := 1 }

/-- A queue instance about to open badStore with batch size 1. -/
def badQ : QState := initState 1

/-- A three-task store in which tasks 1 and 3 share a payload. -/
def searchStore : Store :=
  { rows := [{ id := 1, job := Blob.good (JSVal.numVal 0) },
             { id := 2, job := Blob.good (JSVal.numVal 1) },
             { id := 3, job := Blob.good (JSVal.numVal 0) }],
    seq := 3, counter := 3 }

/-- The queue over searchStore after hydrating the oldest two tasks. -/
def searchQ : QState :=
  { queue := [{ id := 1, job := JSVal.numVal 0 }, { id := 2, job := JSVal.numVal 1 }],
    length := some 3, empty := some false, run := false,
    opened := true, dbOpen := true, batchSize := 2 }

/-- A freshly opened empty queue with batch size 2. -/
def c2q0 : QState := openedEmpty 2

/-- The operation sequence used to witness the count invariant. -/
def c2ops : List Op := [Op.add (JSVal.numVal 9), Op.add JSVal.null, Op.hydr, Op.fin]

/-- The state c2ops leaves the instance in. -/
def c2qF : QState :=
  { queue := [{ id := 2, job := JSVal.null }], length := some 1, empty := some false,
    run := false, opened := true, dbOpen := true, batchSize := 2 }

/-- The store c2ops leaves behind. -/
def c2sF : Store :=
  { rows := [{ id := 2, job := Blob.good JSVal.null }], seq := 2, counter := 1 }

/-- The task a (well-formed) stored row decodes to. -/
def decTask (r : Row) : Task :=
  { id := r.id,
    job := match r.job with
           | Blob.good v => v
           | Blob.bad _ => JSVal.null }

/-- Five payloads, enough to cross a batch size of two more than once. -/
def fifoJobs : List JSVal :=
  [JSVal.numVal 0, JSVal.numVal 1, JSVal.numVal 2, JSVal.numVal 3, JSVal.numVal 4]

/-- delete(id) never writes the empty flag, whatever the state. -/
theorem deleteOp_empty_eq (q : QState) (s : Store) (id : Nat) :
    (deleteOp q s id).q.empty = q.empty := by
  unfold deleteOp
  by_cases h : (s.rows.countP (fun r => r.id == id)) = 0 <;> simp [h]

/-- C9: construction fails synchronously exactly when the filename argument
is missing or when a batch size argument is provided that is not a number or
is less than 1; the empty-string filename is the only silently defaulted
path (mapped to the in-memory store) and an omitted batch size defaults
to 10. -/
theorem construct_fail_fast (f b : JSArg) :
    isErr (construct f b) = (f == JSArg.undefinedArg || badBatch b)
    ∧ (exOk (construct f b)).map (fun o => o.dbPath)
        = (if f == JSArg.undefinedArg || badBatch b then none
           else some (if f = JSArg.strArg "" then JSArg.strArg ":memory:" else f))
    ∧ (exOk (construct f b)).map (fun o => o.batchSize)
        = (if f == JSArg.undefinedArg || badBatch b then none
           else some (defaultedBatch b)) := by
  cases f <;> cases b <;>
    simp [construct, isErr, exOk, badBatch, defaultedBatch] <;>
    split_ifs <;> simp_all [isErr, exOk]

/-- C3: the promise executor of has() binds its parameters as
(reject, resolve), the reverse of the Promise contract, so in normal
operation has() rejects with the membership boolean (from the cache or the
store lookup) instead of resolving with it, and on a db error it resolves
with the error object. -/
theorem has_swapped_settlement :
    hasOp hasQ hasStore 1 none = Settle.rejected (JV.boolean true)
    ∧ hasOp hasQ hasStore 2 none = Settle.rejected (JV.boolean false)
    ∧ hasOp hasCacheQ hasStore 1 (some "SQLITE_BUSY") = Settle.rejected (JV.boolean true)
    ∧ hasOp hasQ hasStore 1 (some "SQLITE_BUSY") = Settle.fulfilled (JV.errObj "SQLITE_BUSY") := by
  decide

/-- C4: when the INSERT fails, add() rejects but — lacking an early return
after reject(err) — still increments the mirrored count and still emits the
add event, while the store is left without the row; so the count does not
stay unchanged on a failed insert as the claim requires. -/
theorem add_error_still_increments :
    (addOp (openedEmpty 10) emptyStore JSVal.null (some "SQLITE_MISUSE")).settled
        = Except.error "SQLITE_MISUSE"
    ∧ (addOp (openedEmpty 10) emptyStore JSVal.null (some "SQLITE_MISUSE")).st.length = some 1
    ∧ (addOp (openedEmpty 10) emptyStore JSVal.null (some "SQLITE_MISUSE")).store = emptyStore
    ∧ (addOp (openedEmpty 10) emptyStore JSVal.null (some "SQLITE_MISUSE")).events ≠ [] := by
  decide

/-- C5 counterexample: a successful close() leaves the mirrored count at its
pre-close value (here 3) instead of resetting it to the unknown value it
holds in the unopened state, refuting the claim that the count-tracking
state is reset to unknown. -/
theorem close_keeps_length_counterexample :
    (closeOp closeQ none).settled = Except.ok ()
    ∧ (closeOp closeQ none).q.length = some 3
    ∧ (closeOp closeQ none).q.length ≠ none := by
  decide

/-- C5 (amended): after a successful close the cache is cleared, running is
false, opened is false, the db handle is dropped and the empty flag is reset
to unknown, but the mirrored count keeps its previous value rather than
being reset. -/
theorem close_resets_state_except_length (q : QState) :
    (closeOp q none).settled = Except.ok ()
    ∧ (closeOp q none).q.queue = []
    ∧ (closeOp q none).q.run = false
    ∧ (closeOp q none).q.opened = false
    ∧ (closeOp q none).q.dbOpen = false
    ∧ (closeOp q none).q.empty = none
    ∧ (closeOp q none).q.length = q.length := by
  simp [closeOp, closeHandler]

/-- C10: delete(id) removes the task and decrements the mirrored count but
emits neither trigger_next nor empty and never touches the empty flag; in
particular deleting the last remaining task leaves the flag false, so
isEmpty() returns false while getLength() returns 0. -/
theorem delete_no_empty_signal (q : QState) (s : Store) (t : Task) (r : Row)
    (hq : q.queue = [t]) (hr : s.rows = [r]) (hid : r.id = t.id)
    (hempty : q.empty = some false) (hlen : q.length = some 1) :
    (deleteOp q s t.id).settled = Except.ok t.id
    ∧ (deleteOp q s t.id).q.empty = some false
    ∧ getLength (deleteOp q s t.id).q = some 0
    ∧ (deleteOp q s t.id).s.rows = []
    ∧ isEmptyOp (deleteOp q s t.id).q = Except.ok false
    ∧ (deleteOp q s t.id).events = [Event.del t.id]
    ∧ Event.empty ∉ (deleteOp q s t.id).events
    ∧ Event.trig ∉ (deleteOp q s t.id).events
    ∧ (∀ q2 s2 id2, (deleteOp q2 s2 id2).q.empty = q2.empty) := by
  refine ⟨?_, ?_, ?_, ?_, ?_, ?_, ?_, ?_, fun q2 s2 id2 => deleteOp_empty_eq q2 s2 id2⟩ <;>
    simp [deleteOp, spliceById, getLength, isEmptyOp, hq, hr, hid, hempty, hlen,
          List.countP_cons, List.countP_nil]

/-- C10 witness: the scenario instantiated at a concrete one-task queue. -/
theorem delete_no_empty_signal_witness :
    (deleteOp delQ delStore 7).settled = Except.ok 7
    ∧ (deleteOp delQ delStore 7).q.empty = some false
    ∧ getLength (deleteOp delQ delStore 7).q = some 0
    ∧ (deleteOp delQ delStore 7).s.rows = []
    ∧ isEmptyOp (deleteOp delQ delStore 7).q = Except.ok false
    ∧ (deleteOp delQ delStore 7).events = [Event.del 7]
    ∧ Event.empty ∉ (deleteOp delQ delStore 7).events
    ∧ Event.trig ∉ (deleteOp delQ delStore 7).events
    ∧ (∀ q2 s2 id2, (deleteOp q2 s2 id2).q.empty = q2.empty) :=
  delete_no_empty_signal delQ delStore { id := 7, job := JSVal.numVal 42 }
    { id := 7, job := Blob.good (JSVal.numVal 42) } rfl rfl rfl rfl rfl

/-- C8: abort() only halts delivery — it leaves the cache, the mirrored
count, the empty flag and the durable store untouched, with the head task
still in place — and a subsequent start() announces the same head task
again. -/
theorem abort_keeps_head_for_restart (q : QState) (s : Store) (t : Task)
    (rest : List Task) (hdb : q.dbOpen = true) (hq : q.queue = t :: rest)
    (he : q.empty ≠ some true) :
    (abortOp q s).1.run = false
    ∧ (abortOp q s).1.queue = q.queue
    ∧ (abortOp q s).1.length = q.length
    ∧ (abortOp q s).1.empty = q.empty
    ∧ (abortOp q s).2 = s
    ∧ startOp (abortOp q s).1 s
        = Except.ok ({ (abortOp q s).1 with run := true }, Delivery.next (some t)) := by
  refine ⟨rfl, rfl, rfl, rfl, rfl, ?_⟩
  simp [abortOp, stopHandler, startOp, triggerNext, hdb, hq, he]

/-- C8 witness: abort/restart on a concrete mid-delivery queue. -/
theorem abort_keeps_head_for_restart_witness :
    (abortOp abortQ abortStore).1.run = false
    ∧ (abortOp abortQ abortStore).1.queue = abortQ.queue
    ∧ (abortOp abortQ abortStore).1.length = abortQ.length
    ∧ (abortOp abortQ abortStore).1.empty = abortQ.empty
    ∧ (abortOp abortQ abortStore).2 = abortStore
    ∧ startOp (abortOp abortQ abortStore).1 abortStore
        = Except.ok ({ (abortOp abortQ abortStore).1 with run := true },
            Delivery.next (some { id := 1, job := JSVal.strVal "X" })) :=
  abort_keeps_head_for_restart abortQ abortStore
    { id := 1, job := JSVal.strVal "X" } [] rfl rfl (by decide)

/-- Except.map keeps the error/ok status. -/
theorem isErr_map {a b : Type} (e : Except String a) (f : a → b) :
    isErr (e.map f) = isErr e := by
  cases e <;> rfl

/-- decodeRows rejects whenever some row fails to deserialize. -/
theorem decodeRows_isErr (rs : List Row)
    (h : rs.any (fun r => r.job.isBad) = true) :
    isErr (decodeRows rs) = true := by
  induction rs with
  | nil => simp at h
  | cons r rs ih =>
    cases hr : r.job with
    | bad s => simp [decodeRows, parseJS, hr, isErr]
    | good v =>
      have h2 : rs.any (fun r => r.job.isBad) = true := by
        rcases List.any_eq_true.mp h with ⟨x, hx, hbx⟩
        rcases List.mem_cons.mp hx with hx | hx
        · subst hx; rw [hr] at hbx; simp [Blob.isBad] at hbx
        · exact List.any_eq_true.mpr ⟨x, hx, hbx⟩
      rw [decodeRows, hr]
      simp only [parseJS]
      rw [← isErr_map (decodeRows rs) (fun ts => ({ id := r.id, job := v } : Task) :: ts)] at ih
      exact ih h2

/-- C7: if any row among the batch selected for rehydration has a payload
that fails to deserialize, the rehydration rejects rather than silently
skipping the row, and open() (whose chain ends in that rehydration)
rejects as well. -/
theorem hydrate_surfaces_bad_rows (q : QState) (s : Store)
    (hbad : ((sortById s.rows).take q.batchSize.toNat).any (fun r => r.job.isBad) = true) :
    isErr (hydrateQueue q s) = true ∧ isErr (openOp q s) = true := by
  have h1 : isErr (hydrateQueue q s) = true := by
    rw [hydrateQueue, isErr_map]
    exact decodeRows_isErr _ hbad
  refine ⟨h1, ?_⟩
  rw [openOp, isErr_map, hydrateQueue, isErr_map]
  exact decodeRows_isErr _ hbad

/-- C7 witness: opening a batch-size-1 queue over a store whose first row is
malformed text rejects. -/
theorem hydrate_surfaces_bad_rows_witness :
    isErr (hydrateQueue badQ badStore) = true ∧ isErr (openOp badQ badStore) = true :=
  hydrate_surfaces_bad_rows badQ badStore (by decide)

/-- Inserting a row whose id is at most every id in the list puts it in
front. -/
theorem insertRow_front (r : Row) (l : List Row)
    (h : ∀ x ∈ l, r.id ≤ x.id) : insertRow r l = r :: l := by
  cases l with
  | nil => rfl
  | cons x xs => simp [insertRow, h x (List.mem_cons_self x xs)]

/-- Sorting a list already strictly ascending by id leaves it unchanged. -/
theorem sortById_eq_self (l : List Row)
    (h : List.Pairwise (fun a b => a.id < b.id) l) : sortById l = l := by
  induction l with
  | nil => rfl
  | cons x xs ih =>
    rw [List.pairwise_cons] at h
    rw [sortById, ih h.2]
    exact insertRow_front x xs (fun y hy => le_of_lt (h.1 y hy))

/-- Membership is preserved by insertRow. -/
theorem mem_insertRow (a r : Row) (l : List Row) :
    a ∈ insertRow r l ↔ a = r ∨ a ∈ l := by
  induction l with
  | nil => simp [insertRow]
  | cons x xs ih =>
    by_cases h : r.id ≤ x.id
    · simp only [insertRow, if_pos h, List.mem_cons]
    · simp only [insertRow, if_neg h, List.mem_cons, ih]
      tauto

/-- Membership is preserved by sortById. -/
theorem mem_sortById (a : Row) (l : List Row) : a ∈ sortById l ↔ a ∈ l := by
  induction l with
  | nil => simp [sortById]
  | cons x xs ih => simp [sortById, mem_insertRow, ih]

/-- When a cache hydrated from the oldest prefix of the store finds a
payload match, that match carries the id of the first matching row of the
whole store. -/
theorem cacheFind_head (p : JSVal) (rows : List Row) : ∀ (k : Nat)
    (queue : List Task) (t : Task),
    decodeRows (rows.take k) = Except.ok queue →
    queue.find? (fun t => stringifyJS t.job == stringifyJS p) = some t →
    ((rows.filter (fun r => r.job == stringifyJS p)).map (fun r => r.id)).head?
      = some t.id := by
  induction rows with
  | nil =>
    intro k queue t hdec hfind
    simp [decodeRows] at hdec
    subst hdec
    simp at hfind
  | cons r rs ih =>
    intro k queue t hdec hfind
    cases k with
    | zero =>
      simp [decodeRows] at hdec
      subst hdec
      simp at hfind
    | succ k =>
      rw [List.take_succ_cons] at hdec
      cases hj : r.job with
      | bad s =>
        rw [decodeRows, hj] at hdec
        simp [parseJS] at hdec
      | good v =>
        rw [decodeRows, hj] at hdec
        simp only [parseJS] at hdec
        cases hd : decodeRows (rs.take k) with
        | error e => rw [hd] at hdec; simp [Except.map] at hdec
        | ok ts =>
          rw [hd] at hdec
          simp only [Except.map, Except.ok.injEq] at hdec
          subst hdec
          by_cases hv : v = p
          · subst hv
            rw [List.find?_cons_of_pos _ (by simp [stringifyJS])] at hfind
            have ht : ({ id := r.id, job := v } : Task) = t := by
              exact Option.some.inj hfind
            rw [List.filter_cons, if_pos (by simp [hj, stringifyJS])]
            simp [← ht]
          · have hfind2 : ts.find? (fun t => stringifyJS t.job == stringifyJS p)
                = some t := by
              rw [List.find?_cons_of_neg _ (by simp [stringifyJS, hv])] at hfind
              exact hfind
            have := ih k ts t hd hfind2
            rw [List.filter_cons, if_neg (by simp [hj, stringifyJS, hv])]
            exact this

/-- C6: getJobIds returns exactly the ids of the rows whose serialized
payload equals the serialized pattern, in strictly ascending order (empty
when nothing matches), and getFirstJobId — which consults the in-memory
cache first — always agrees with the head of that list, returning the null
sentinel when there is no match.  The cache is a hydrated prefix of the
store and row ids are strictly ascending, as every reachable state
satisfies. -/
theorem search_order_agreement (q : QState) (s : Store) (k : Nat)
    (hsort : List.Pairwise (fun a b => a.id < b.id) s.rows)
    (hcache : decodeRows (s.rows.take k) = Except.ok q.queue) (p : JSVal) :
    (∀ n, n ∈ getJobIds s p ↔ ∃ r ∈ s.rows, r.id = n ∧ r.job = stringifyJS p)
    ∧ List.Pairwise (· < ·) (getJobIds s p)
    ∧ getFirstJobId q s p = (getJobIds s p).head? := by
  have hfsub : List.Pairwise (fun a b => a.id < b.id)
      (s.rows.filter (fun r => r.job == stringifyJS p)) :=
    hsort.sublist (List.filter_sublist s.rows)
  have hsame : sortById (s.rows.filter (fun r => r.job == stringifyJS p))
      = s.rows.filter (fun r => r.job == stringifyJS p) :=
    sortById_eq_self _ hfsub
  refine ⟨?_, ?_, ?_⟩
  · intro n
    simp [getJobIds, searchQueue, hsame, List.mem_filter, beq_iff_eq]
    tauto
  · rw [getJobIds, searchQueue, hsame]
    exact (List.pairwise_map.mpr (by simpa using hfsub))
  · rw [getFirstJobId]
    cases hf : q.queue.find? (fun t => stringifyJS t.job == stringifyJS p) with
    | some t =>
      have := cacheFind_head p s.rows k q.queue t hcache hf
      rw [getJobIds, searchQueue, hsame]
      exact this.symm
    | none =>
      rw [getJobIds]
      cases hs : searchQueue s p with
      | nil => simp
      | cons x xs => simp

/-- C6 witness: the agreement instantiated on a concrete three-task store
with its two-task hydrated cache, for the shared payload. -/
theorem search_order_agreement_witness :
    (∀ n, n ∈ getJobIds searchStore (JSVal.numVal 0) ↔
        ∃ r ∈ searchStore.rows, r.id = n ∧ r.job = stringifyJS (JSVal.numVal 0))
    ∧ List.Pairwise (· < ·) (getJobIds searchStore (JSVal.numVal 0))
    ∧ getFirstJobId searchQ searchStore (JSVal.numVal 0)
        = (getJobIds searchStore (JSVal.numVal 0)).head? :=
  search_order_agreement searchQ searchStore 2 (by decide) (by decide) (JSVal.numVal 0)

/-- The add handler only ever touches the empty flag. -/
theorem addHandler_frame (q : QState) :
    (addHandler q).1.length = q.length ∧ (addHandler q).1.queue = q.queue
    ∧ (addHandler q).1.run = q.run ∧ (addHandler q).1.batchSize = q.batchSize
    ∧ (addHandler q).1.dbOpen = q.dbOpen ∧ (addHandler q).1.opened = q.opened := by
  unfold addHandler; split <;> exact ⟨rfl, rfl, rfl, rfl, rfl, rfl⟩

/-- Rows kept by a DELETE plus rows it affects account for the table. -/
theorem length_filter_add_countP (l : List Row) (i : Nat) :
    (l.filter (fun r => r.id != i)).length + l.countP (fun r => r.id == i)
      = l.length := by
  induction l with
  | nil => simp
  | cons r rs ih =>
    by_cases h : r.id = i <;>
      simp [List.filter_cons, List.countP_cons, h] <;> omega

/-- With the PRIMARY KEY in force, a DELETE by id affects at most one row. -/
theorem countP_id_le_one (l : List Row) (i : Nat)
    (h : (l.map (fun r => r.id)).Nodup) :
    l.countP (fun r => r.id == i) ≤ 1 := by
  induction l with
  | nil => simp
  | cons r rs ih =>
    rw [List.map_cons, List.nodup_cons] at h
    by_cases hr : r.id = i
    · have hz : rs.countP (fun x => x.id == i) = 0 := by
        rw [List.countP_eq_zero]
        intro x hx hxi
        rw [beq_iff_eq] at hxi
        exact h.1 (List.mem_map.mpr ⟨x, hx, by rw [hxi, hr]⟩)
      simp [List.countP_cons, hr, hz]
    · simp only [List.countP_cons, beq_iff_eq, hr]
      simpa using ih h.2

/-- Appending a fresh AUTOINCREMENT row preserves store well-formedness. -/
theorem StoreWf_push (s : Store) (b : Blob) (c : Int) (hwf : StoreWf s) :
    StoreWf { rows := s.rows ++ [{ id := s.seq + 1, job := b }],
              seq := s.seq + 1, counter := c } := by
  constructor
  · rw [List.map_append]
    refine List.Nodup.append hwf.1 (by simp) ?_
    intro a ha hb
    simp at hb
    rcases List.mem_map.mp ha with ⟨r, hr, hid⟩
    have := hwf.2 r hr
    omega
  · intro r hr
    show r.id ≤ s.seq + 1
    rcases List.mem_append.mp hr with hr | hr
    · have := hwf.2 r hr
      omega
    · simp at hr
      simp [hr]

/-- Deleting rows preserves store well-formedness. -/
theorem StoreWf_filter (s : Store) (i : Nat) (c : Int) (hwf : StoreWf s) :
    StoreWf { rows := s.rows.filter (fun r => r.id != i),
              seq := s.seq, counter := c } := by
  constructor
  · exact hwf.1.sublist ((s.rows.filter_sublist).map (fun r => r.id))
  · intro r hr
    exact hwf.2 r (List.mem_of_mem_filter hr)

/-- A settled operation keeps the mirrored count equal to the row count and
preserves well-formedness. -/
theorem applyOp_sync (q : QState) (s : Store) (op : Op) (q2 : QState) (s2 : Store)
    (hlen : q.length = some (s.rows.length : Int)) (hwf : StoreWf s)
    (happ : applyOp (q, s) op = some (q2, s2)) :
    q2.length = some (s2.rows.length : Int) ∧ StoreWf s2 := by
  cases op with
  | add j =>
    simp only [applyOp, addOp, Option.some.injEq, Prod.mk.injEq] at happ
    obtain ⟨hq2, hs2⟩ := happ
    subst hq2; subst hs2
    refine ⟨?_, StoreWf_push s (stringifyJS j) (s.counter + 1) hwf⟩
    rw [(addHandler_frame _).1]
    simp [hlen]
  | fin =>
    simp only [applyOp, doneOp] at happ
    cases hq : q.queue with
    | nil => rw [hq] at happ; simp at happ
    | cons t rest =>
      rw [hq] at happ
      by_cases hc : s.rows.countP (fun r => r.id == t.id) = 0
      · simp [hc] at happ
      · simp only [hc, if_false, Option.some.injEq, Prod.mk.injEq] at happ
        obtain ⟨hq2, hs2⟩ := happ
        subst hq2; subst hs2
        have h1 : s.rows.countP (fun r => r.id == t.id) = 1 :=
          Nat.le_antisymm (countP_id_le_one s.rows t.id hwf.1) (Nat.one_le_iff_ne_zero.mpr hc)
        have h2 := length_filter_add_countP s.rows t.id
        refine ⟨?_, StoreWf_filter s t.id _ hwf⟩
        simp [hlen]
        omega
  | del i =>
    simp only [applyOp, deleteOp] at happ
    by_cases hc : s.rows.countP (fun r => r.id == i) = 0
    · simp only [hc, if_true, Option.some.injEq, Prod.mk.injEq] at happ
      obtain ⟨hq2, hs2⟩ := happ
      subst hq2; subst hs2
      exact ⟨hlen, hwf⟩
    · simp only [hc, if_false, Option.some.injEq, Prod.mk.injEq] at happ
      obtain ⟨hq2, hs2⟩ := happ
      subst hq2; subst hs2
      have h1 : s.rows.countP (fun r => r.id == i) = 1 :=
        Nat.le_antisymm (countP_id_le_one s.rows i hwf.1) (Nat.one_le_iff_ne_zero.mpr hc)
      have h2 := length_filter_add_countP s.rows i
      refine ⟨?_, StoreWf_filter s i _ hwf⟩
      simp [hlen]
      omega
  | hydr =>
    simp only [applyOp] at happ
    cases hd : hydrateQueue q s with
    | error e => rw [hd] at happ; simp at happ
    | ok q3 =>
      rw [hd] at happ
      simp only [Option.some.injEq, Prod.mk.injEq] at happ
      obtain ⟨hq2, hs2⟩ := happ
      subst hq2; subst hs2
      rw [hydrateQueue] at hd
      cases hdr : decodeRows ((sortById s.rows).take q.batchSize.toNat) with
      | error e => rw [hdr] at hd; simp [Except.map] at hd
      | ok ts =>
        rw [hdr] at hd
        simp only [Except.map, Except.ok.injEq] at hd
        subst hd
        exact ⟨hlen, hwf⟩

/-- A settled operation sequence keeps the count synchronized. -/
theorem applyOps_sync (ops : List Op) : ∀ (q : QState) (s : Store)
    (q2 : QState) (s2 : Store),
    q.length = some (s.rows.length : Int) → StoreWf s →
    applyOps (q, s) ops = some (q2, s2) →
    q2.length = some (s2.rows.length : Int) ∧ StoreWf s2 := by
  induction ops with
  | nil =>
    intro q s q2 s2 hlen hwf happ
    simp [applyOps] at happ
    obtain ⟨hq2, hs2⟩ := happ
    subst hq2; subst hs2
    exact ⟨hlen, hwf⟩
  | cons op ops ih =>
    intro q s q2 s2 hlen hwf happ
    rw [applyOps] at happ
    cases hstep : applyOp (q, s) op with
    | none => rw [hstep] at happ; simp at happ
    | some st2 =>
      rw [hstep] at happ
      have hmid := applyOp_sync q s op st2.1 st2.2 hlen hwf (by rw [hstep])
      exact ih st2.1 st2.2 q2 s2 hmid.1 hmid.2 happ

/-- C2: open() synchronizes the mirrored count with the row count of the
durable store, and every settled sequence of add/done/delete calls (with
the trigger loop's rehydrations interleaved) keeps getLength() equal to the
number of rows actually present. -/
theorem count_matches_store :
    (∀ (q : QState) (s : Store) (q2 : QState) (s2 : Store),
        openOp q s = Except.ok (q2, s2) → getLength q2 = some (s2.rows.length : Int))
    ∧ (∀ (q : QState) (s : Store) (ops : List Op) (q2 : QState) (s2 : Store),
        getLength q = some (s.rows.length : Int) → StoreWf s →
        applyOps (q, s) ops = some (q2, s2) →
        getLength q2 = some (s2.rows.length : Int)) := by
  constructor
  · intro q s q2 s2 hopen
    rw [openOp, hydrateQueue] at hopen
    cases hdr : decodeRows ((sortById s.rows).take q.batchSize.toNat) with
    | error e => rw [hdr] at hopen; simp [Except.map] at hopen
    | ok ts =>
      rw [hdr] at hopen
      simp only [Except.map, Except.ok.injEq, Prod.mk.injEq] at hopen
      obtain ⟨hq2, hs2⟩ := hopen
      subst hq2; subst hs2
      rfl
  · intro q s ops q2 s2 hlen hwf happ
    exact (applyOps_sync ops q s q2 s2 hlen hwf happ).1

/-- C2 witness: two adds, a rehydration and a done over a fresh store keep
getLength() equal to the surviving row count. -/
theorem count_matches_store_witness :
    getLength c2qF = some ((c2sF.rows.length : Nat) : Int) :=
  count_matches_store.2 c2q0 emptyStore c2ops c2qF c2sF (by decide) (by decide)
    (by decide)

/-- Unfolding lemma for one step of the drain loop. -/
theorem drainFrom_succ (fuel : Nat) (q : QState) (s : Store) :
    drainFrom (fuel + 1) q s =
      match triggerNext q s with
      | Except.error e => Except.error e
      | Except.ok (_, Delivery.silent) => Except.ok []
      | Except.ok (_, Delivery.emptied) => Except.ok []
      | Except.ok (_, Delivery.next none) => Except.error "undefined head task"
      | Except.ok (q1, Delivery.next (some t)) =>
        match doneOp q1 s with
        | none => Except.error "process exit"
        | some (q2, s2) => (drainFrom fuel q2 s2).map (fun ids => t.id :: ids) := rfl

/-- Decoding all-good rows succeeds and keeps ids and payloads aligned. -/
theorem decodeRows_allGood (rs : List Row) (h : ∀ r ∈ rs, r.job.isBad = false) :
    decodeRows rs = Except.ok (rs.map decTask) := by
  induction rs with
  | nil => rfl
  | cons r rs ih =>
    cases hj : r.job with
    | bad s =>
      have := h r (List.mem_cons_self r rs)
      rw [hj] at this
      simp [Blob.isBad] at this
    | good v =>
      rw [decodeRows, hj]
      simp only [parseJS]
      rw [ih (fun x hx => h x (List.mem_cons_of_mem r hx))]
      simp [Except.map, decTask, hj]

/-- Length of the rows a run of adds appends. -/
theorem mkRows_length (jobs : List JSVal) : ∀ start,
    (mkRows start jobs).length = jobs.length := by
  induction jobs with
  | nil => intro start; rfl
  | cons j js ih => intro start; simp [mkRows, ih]

/-- Ids of the rows a run of adds appends. -/
theorem mkRows_map_id (jobs : List JSVal) : ∀ start,
    (mkRows start jobs).map (fun r => r.id) = List.range' start jobs.length := by
  induction jobs with
  | nil => intro start; rfl
  | cons j js ih => intro start; simp [mkRows, List.range'_succ, ih]

/-- Added rows always carry well-formed serialized payloads. -/
theorem mkRows_good (jobs : List JSVal) : ∀ start, ∀ r ∈ mkRows start jobs,
    r.job.isBad = false := by
  induction jobs with
  | nil => intro start r hr; simp [mkRows] at hr
  | cons j js ih =>
    intro start r hr
    rcases List.mem_cons.mp hr with hr | hr
    · subst hr; rfl
    · exact ih (start + 1) r hr

/-- Added rows carry ids at least the starting sequence value. -/
theorem mkRows_id_ge (jobs : List JSVal) : ∀ start, ∀ r ∈ mkRows start jobs,
    start ≤ r.id := by
  induction jobs with
  | nil => intro start r hr; simp [mkRows] at hr
  | cons j js ih =>
    intro start r hr
    rcases List.mem_cons.mp hr with hr | hr
    · subst hr; simp
    · have := ih (start + 1) r hr
      omega

/-- Added rows have strictly ascending ids. -/
theorem mkRows_pairwise (jobs : List JSVal) : ∀ start,
    List.Pairwise (fun a b => a.id < b.id) (mkRows start jobs) := by
  induction jobs with
  | nil => intro start; simp [mkRows]
  | cons j js ih =>
    intro start
    rw [mkRows, List.pairwise_cons]
    refine ⟨fun r hr => ?_, ih (start + 1)⟩
    have := mkRows_id_ge js (start + 1) r hr
    simp
    omega

/-- The empty flag after the add handler. -/
theorem addHandler_empty (q : QState) :
    (addHandler q).1.empty = if q.empty = some true then some false else q.empty := by
  unfold addHandler; split <;> simp_all

/-- A run of successful adds appends its serialized payloads with fresh
ascending ids, bumps sequence, counter and mirrored length by the number of
jobs, and flips a true empty flag to false when at least one job is added. -/
theorem addAll_spec (jobs : List JSVal) : ∀ (q : QState) (s : Store),
    addAll (q, s) jobs =
      ({ q with length := q.length.map (· + (jobs.length : Int)),
                empty := if jobs.isEmpty then q.empty
                         else if q.empty = some true then some false else q.empty },
       { rows := s.rows ++ mkRows (s.seq + 1) jobs,
         seq := s.seq + jobs.length,
         counter := s.counter + (jobs.length : Int) }) := by
  induction jobs with
  | nil =>
    intro q s
    have hlen0 : q.length.map (· + ((0 : Nat) : Int)) = q.length := by
      cases q.length <;> simp
    simp [addAll, mkRows, hlen0]
  | cons j js ih =>
    intro q s
    rw [show addAll (q, s) (j :: js)
        = addAll ((addOp q s j none).st, (addOp q s j none).store) js from rfl]
    rw [ih]
    simp only [addOp, Prod.mk.injEq]
    constructor
    · have hq := addHandler_frame { q with length := q.length.map (· + 1) }
      have he := addHandler_empty { q with length := q.length.map (· + 1) }
      refine QState.ext ?_ ?_ ?_ ?_ ?_ ?_ ?_ <;> simp_all
      · cases q.length <;> simp
        ring
      · by_cases hq : q.empty = some true <;> simp [hq]
    · refine Store.ext ?_ ?_ ?_
      · simp [mkRows]
      · simp [mkRows]
        omega
      · simp [mkRows]
        ring

/-- One drain step that ends on the empty announcement. -/
theorem drainFrom_step_end (fuel : Nat) (q : QState) (s : Store) (q1 : QState)
    (h : triggerNext q s = Except.ok (q1, Delivery.emptied)) :
    drainFrom (fuel + 1) q s = Except.ok [] := by
  rw [drainFrom_succ, h]

/-- One drain step that announces a task and completes it with done(). -/
theorem drainFrom_step_next (fuel : Nat) (q : QState) (s : Store) (q1 : QState)
    (t : Task) (q2 : QState) (s2 : Store)
    (h : triggerNext q s = Except.ok (q1, Delivery.next (some t)))
    (h2 : doneOp q1 s = some (q2, s2)) :
    drainFrom (fuel + 1) q s = (drainFrom fuel q2 s2).map (fun ids => t.id :: ids) := by
  rw [drainFrom_succ, h]
  show (match doneOp q1 s with
        | none => Except.error "process exit"
        | some (a, b) => (drainFrom fuel a b).map (fun ids => t.id :: ids))
      = (drainFrom fuel q2 s2).map (fun ids => t.id :: ids)
  rw [h2]

/-- While running over a well-formed store whose cache is a decoded prefix
of the remaining rows, the drain loop announces every remaining row id in
store order and then raises the empty event. -/
theorem drainFrom_runs (rows : List Row) : ∀ (q : QState) (s : Store) (k : Nat),
    s.rows = rows →
    q.run = true → q.empty = some false → 1 ≤ q.batchSize →
    List.Pairwise (fun a b => a.id < b.id) rows →
    (∀ r ∈ rows, r.job.isBad = false) →
    q.queue = (rows.take k).map decTask →
    q.length = some (rows.length : Int) →
    drainFrom (rows.length + 1) q s = Except.ok (rows.map (fun r => r.id)) := by
  induction rows with
  | nil =>
    intro q s k hs hrun hempty hB hpw hgood hq hlen
    have ht : triggerNext q s = Except.ok (emptyHandler q, Delivery.emptied) := by
      simp only [triggerNext]
      rw [if_neg (by simp [hrun, hempty])]
      rw [if_neg (by simp [hlen])]
      rw [if_neg (by simp [hq])]
    exact drainFrom_step_end _ _ _ _ ht
  | cons r rs ih =>
    intro q s k hs hrun hempty hB hpw hgood hq hlen
    rw [List.pairwise_cons] at hpw
    obtain ⟨hlt, hpw2⟩ := hpw
    have hgood2 : ∀ x ∈ rs, x.job.isBad = false :=
      fun x hx => hgood x (List.mem_cons_of_mem r hx)
    have hcount : (r :: rs).countP (fun x => x.id == r.id) = 1 := by
      rw [List.countP_cons]
      have hz : rs.countP (fun x => x.id == r.id) = 0 := by
        rw [List.countP_eq_zero]
        intro x hx hxe
        rw [beq_iff_eq] at hxe
        have := hlt x hx
        omega
      simp [hz]
    have hfilter : (r :: rs).filter (fun x => x.id != r.id) = rs := by
      rw [List.filter_cons]
      rw [if_neg (by simp)]
      rw [List.filter_eq_self]
      intro x hx
      have := hlt x hx
      simp
      omega
    have hdstep : ∀ (m : Nat) (qh : QState),
        qh.queue = decTask r :: (rs.take m).map decTask →
        doneOp qh s = some
          ({ qh with queue := (rs.take m).map decTask,
                     length := qh.length.map (· - 1) },
           { s with rows := rs, counter := s.counter - 1 }) := by
      intro m qh hqh
      simp only [doneOp, hqh, hs]
      have hid : (decTask r).id = r.id := rfl
      rw [hid, hcount, hfilter]
      simp
    have hlenne : q.length ≠ some 0 := by
      rw [hlen]
      intro hcontra
      rw [Option.some.injEq] at hcontra
      rw [List.length_cons] at hcontra
      omega
    have hlen3 : (some ((r :: rs).length : Int)).map (· - 1)
        = some ((rs.length : Nat) : Int) := by
      simp
    by_cases hk : (r :: rs).take k = []
    · have hq0 : q.queue = [] := by rw [hq, hk]; rfl
      obtain ⟨m, hm⟩ : ∃ m, q.batchSize.toNat = m + 1 :=
        ⟨q.batchSize.toNat - 1, by omega⟩
      have hsort : sortById (r :: rs) = r :: rs :=
        sortById_eq_self _ (by rw [List.pairwise_cons]; exact ⟨hlt, hpw2⟩)
      have hhyd : hydrateQueue q s = Except.ok
          { q with queue := decTask r :: (rs.take m).map decTask } := by
        rw [hydrateQueue, hs, hsort, hm]
        rw [decodeRows_allGood _ (fun x hx => hgood x (List.take_subset _ _ hx))]
        rw [List.take_succ_cons, List.map_cons]
        rfl
      have ht : triggerNext q s = Except.ok
          ({ q with queue := decTask r :: (rs.take m).map decTask },
           Delivery.next (some (decTask r))) := by
        simp only [triggerNext]
        rw [if_neg (by simp [hrun, hempty])]
        rw [if_pos (by exact ⟨by simp [hq0], hlenne⟩)]
        rw [hhyd]
        rfl
      have hd := hdstep m { q with queue := decTask r :: (rs.take m).map decTask } rfl
      rw [drainFrom_step_next _ _ _ _ _ _ _ ht hd]
      have hrec := ih
        { q with queue := (rs.take m).map decTask, length := q.length.map (· - 1) }
        { s with rows := rs, counter := s.counter - 1 } m rfl hrun hempty hB hpw2 hgood2
        rfl (by rw [hlen]; exact hlen3)
      rw [List.length_cons, hrec]
      rfl
    · obtain ⟨k2, hk2⟩ : ∃ k2, k = k2 + 1 := by
        cases k with
        | zero => simp at hk
        | succ k2 => exact ⟨k2, rfl⟩
      subst hk2
      have hq2 : q.queue = decTask r :: (rs.take k2).map decTask := by
        rw [hq, List.take_succ_cons, List.map_cons]
      have ht : triggerNext q s = Except.ok (q, Delivery.next (some (decTask r))) := by
        simp only [triggerNext]
        rw [if_neg (by simp [hrun, hempty])]
        rw [if_neg (by simp [hq2])]
        rw [if_pos (by simp [hq2])]
        rw [hq2]
        rfl
      have hd := hdstep k2 q hq2
      rw [drainFrom_step_next _ _ _ _ _ _ _ ht hd]
      have hrec := ih
        { q with queue := (rs.take k2).map decTask, length := q.length.map (· - 1) }
        { s with rows := rs, counter := s.counter - 1 } k2 rfl hrun hempty hB hpw2 hgood2
        rfl (by rw [hlen]; exact hlen3)
      rw [List.length_cons, hrec]
      rfl

/-- One drain step in which the trigger stays silent. -/
theorem drainFrom_step_silent (fuel : Nat) (q : QState) (s : Store) (q1 : QState)
    (h : triggerNext q s = Except.ok (q1, Delivery.silent)) :
    drainFrom (fuel + 1) q s = Except.ok [] := by
  rw [drainFrom_succ, h]

/-- range' with step one is strictly ascending. -/
theorem range'_ascending (n : Nat) : ∀ s, List.Pairwise (· < ·) (List.range' s n) := by
  induction n with
  | zero => intro s; simp
  | succ n ih =>
    intro s
    rw [List.range'_succ, List.pairwise_cons]
    refine ⟨fun m hm => ?_, ih (s + 1)⟩
    have := (List.mem_range'_1.mp hm).1
    omega

/-- The state and store left by opening an empty database and then adding a
batch of jobs. -/
theorem addAll_openedEmpty (B : Int) (jobs : List JSVal) :
    addAll (openedEmpty B, emptyStore) jobs =
      ({ queue := [], length := some ((jobs.length : Nat) : Int),
         empty := some jobs.isEmpty, run := false, opened := true,
         dbOpen := true, batchSize := B },
       { rows := mkRows 1 jobs, seq := jobs.length,
         counter := ((jobs.length : Nat) : Int) }) := by
  rw [addAll_spec]
  cases jobs with
  | nil => simp [openedEmpty, emptyStore, mkRows]
  | cons j js => simp [openedEmpty, emptyStore]

/-- C1: for any batch size B ≥ 1 and any run of add() calls over a freshly
opened empty queue, starting the queue announces the task ids via the next
event exactly in insertion order 1..N — a strictly increasing sequence —
with the consumer acknowledging each by done(); rehydration transparently
bridges every batch boundary when N exceeds B. -/
theorem fifo_across_batches (B : Int) (hB : 1 ≤ B) (jobs : List JSVal) :
    startDrain (addAll (openedEmpty B, emptyStore) jobs).1
               (addAll (openedEmpty B, emptyStore) jobs).2 (jobs.length + 1)
      = Except.ok (List.range' 1 jobs.length)
    ∧ List.Pairwise (· < ·) (List.range' 1 jobs.length) := by
  refine ⟨?_, range'_ascending jobs.length 1⟩
  rw [addAll_openedEmpty]
  cases jobs with
  | nil =>
    simp only [startDrain]
    rw [if_neg (by simp)]
    rw [if_neg (by simp)]
    exact drainFrom_step_silent _ _ _ _
      (by simp only [triggerNext]; rw [if_pos (by simp)])
  | cons j js =>
    simp only [startDrain]
    rw [if_neg (by simp)]
    rw [if_neg (by simp)]
    have h := drainFrom_runs (mkRows 1 (j :: js))
      { queue := [], length := some (((j :: js).length : Nat) : Int),
        empty := some (j :: js).isEmpty, run := true, opened := true,
        dbOpen := true, batchSize := B }
      { rows := mkRows 1 (j :: js), seq := (j :: js).length,
        counter := (((j :: js).length : Nat) : Int) } 0
      rfl rfl (by simp) hB (mkRows_pairwise (j :: js) 1)
      (fun r hr => mkRows_good (j :: js) 1 r hr)
      (by simp) (by simp [mkRows_length])
    rw [mkRows_length] at h
    exact h.trans (by rw [mkRows_map_id])

/-- C1 witness: five adds drained with batch size two announce ids 1..5 in
order, crossing two batch boundaries. -/
theorem fifo_across_batches_witness :
    startDrain (addAll (openedEmpty 2, emptyStore) fifoJobs).1
               (addAll (openedEmpty 2, emptyStore) fifoJobs).2 (fifoJobs.length + 1)
      = Except.ok (List.range' 1 fifoJobs.length)
    ∧ List.Pairwise (· < ·) (List.range' 1 fifoJobs.length) :=
  fifo_across_batches 2 (by decide) fifoJobs

end PQ
